/-
Verification of the mimic-window terminal file manager against its
natural-language specification.

The definitions below are a shallow embedding of the TypeScript sources:
  - src/core/types.ts            (FileItem, Size, Position, AppState, ...)
  - src/core/state-manager.ts    (StateManager action methods)
  - src/core/layout-manager.ts   (LayoutManager geometry)
  - src/core/file-scanner.ts     (FileScanner.scanDirectory)
  - src/core/FileSystem.ts       (FileSystem.listDirectory)
  - file-operations              (FileOperations.getUniqueFileName)
  - events/event-bus             (SimpleEventBus.emit)
  - events/mouse-handler         (MouseHandler.emitMouseEvent)
  - core/file-manager            (FileManager controller handlers)

JavaScript numbers are modelled as Int where sign matters (indices,
coordinates, layout arithmetic); Math.floor(a/b) with b > 0 is Int.fdiv,
and the JS remainder operator on non-negative operands is Int.tmod.
JS `array[i]` (undefined when out of range) is modelled with Option.
-/
import Mathlib

namespace MimicWindow

/-! ## Core data types (src/core/types.ts) -/

inductive FileType where
  | file
  | directory
deriving DecidableEq, Repr

structure FileItem where
  name : String
  path : String
  type : FileType
  size : Option Nat := none
  lastModified : Option Nat := none
deriving DecidableEq, Repr

structure Position where
  x : Int
  y : Int
deriving DecidableEq, Repr

structure Size where
  width : Int
  height : Int
deriving DecidableEq, Repr

structure SelectionState where
  selectedIndex : Int
  selectedItem : Option FileItem
deriving DecidableEq, Repr

structure ViewportState where
  currentPath : String
  items : List FileItem
  terminalSize : Size
  itemsPerRow : Int
  totalRows : Int
deriving DecidableEq, Repr

structure ContextMenuState where
  visible : Bool
  position : Position
  targetItem : Option FileItem
deriving DecidableEq, Repr

inductive ClipOp where
  | copy
  | cut
deriving DecidableEq, Repr

structure AppState where
  viewport : ViewportState
  selection : SelectionState
  contextMenu : ContextMenuState
  clipboard : Option FileItem
  clipboardOperation : Option ClipOp
deriving DecidableEq, Repr

/-- JS `items[i]`: `undefined` (here `none`) when `i` is out of range. -/
def jsIndex (items : List FileItem) (i : Int) : Option FileItem :=
  if 0 ≤ i then items.get? i.toNat else none

/-- JS `s.startsWith(pre)`, on the character lists of the strings. -/
def jsStartsWith (s pre : String) : Bool :=
  pre.data.isPrefixOf s.data

/-- JS `s.endsWith(suf)`, on the character lists of the strings. -/
def jsEndsWith (s suf : String) : Bool :=
  suf.data.isSuffixOf s.data

inductive Direction where
  | up
  | down
  | left
  | right
deriving DecidableEq, Repr

/-! ## StateManager (src/core/state-manager.ts)

Each action method is embedded as a pure function `AppState → AppState`
(the TypeScript mutates `this.state` by replacement through
`updateState`). -/

namespace StateManager

/-- The state built in the `StateManager` constructor. -/
def initialState (initialPath : String) (terminalSize : Size) : AppState :=
  { viewport :=
      { currentPath := initialPath
        items := []
        terminalSize := terminalSize
        itemsPerRow := 0
        totalRows := 0 }
    selection := { selectedIndex := -1, selectedItem := none }
    contextMenu :=
      { visible := false
        position := { x := 0, y := 0 }
        targetItem := none }
    clipboard := none
    clipboardOperation := none }

def setCurrentPath (path : String) (s : AppState) : AppState :=
  { s with viewport := { s.viewport with currentPath := path } }

def setFileItems (items : List FileItem) (s : AppState) : AppState :=
  { s with viewport := { s.viewport with items := items } }

def setTerminalSize (size : Size) (s : AppState) : AppState :=
  { s with viewport := { s.viewport with terminalSize := size } }

def setLayoutInfo (itemsPerRow totalRows : Int) (s : AppState) : AppState :=
  { s with viewport := { s.viewport with itemsPerRow := itemsPerRow, totalRows := totalRows } }

def setSelection (index : Int) (item : Option FileItem) (s : AppState) : AppState :=
  { s with selection := { selectedIndex := index, selectedItem := item } }

def clearSelection (s : AppState) : AppState :=
  setSelection (-1) none s

/-- Action `moveSelection`: no-op (and no notification) when `items` is empty;
otherwise clamps per direction and re-derives the item via
`items[newIndex] || null`. -/
def moveSelection (direction : Direction) (s : AppState) : AppState :=
  let items := s.viewport.items
  let itemsPerRow := s.viewport.itemsPerRow
  let selectedIndex := s.selection.selectedIndex
  if items.length = 0 then s
  else
    let newIndex : Int :=
      match direction with
      | .left => max 0 (selectedIndex - 1)
      | .right => min ((items.length : Int) - 1) (selectedIndex + 1)
      | .up => max 0 (selectedIndex - itemsPerRow)
      | .down => min ((items.length : Int) - 1) (selectedIndex + itemsPerRow)
    setSelection newIndex (jsIndex items newIndex) s

def showContextMenu (position : Position) (targetItem : Option FileItem) (s : AppState) : AppState :=
  { s with contextMenu := { visible := true, position := position, targetItem := targetItem } }

def hideContextMenu (s : AppState) : AppState :=
  { s with contextMenu := { s.contextMenu with visible := false } }

def setClipboard (item : Option FileItem) (operation : Option ClipOp) (s : AppState) : AppState :=
  { s with clipboard := item, clipboardOperation := operation }

def clearClipboard (s : AppState) : AppState :=
  setClipboard none none s

end StateManager

/-- One store action-method call, for reasoning about call sequences. -/
inductive Action where
  | setCurrentPath (path : String)
  | setFileItems (items : List FileItem)
  | setTerminalSize (size : Size)
  | setLayoutInfo (itemsPerRow totalRows : Int)
  | setSelection (index : Int) (item : Option FileItem)
  | clearSelection
  | moveSelection (direction : Direction)
  | showContextMenu (position : Position) (targetItem : Option FileItem)
  | hideContextMenu
  | setClipboard (item : Option FileItem) (operation : Option ClipOp)
  | clearClipboard
deriving DecidableEq, Repr

def applyAction (s : AppState) : Action → AppState
  | .setCurrentPath p => StateManager.setCurrentPath p s
  | .setFileItems items => StateManager.setFileItems items s
  | .setTerminalSize size => StateManager.setTerminalSize size s
  | .setLayoutInfo ipr tr => StateManager.setLayoutInfo ipr tr s
  | .setSelection i it => StateManager.setSelection i it s
  | .clearSelection => StateManager.clearSelection s
  | .moveSelection d => StateManager.moveSelection d s
  | .showContextMenu p t => StateManager.showContextMenu p t s
  | .hideContextMenu => StateManager.hideContextMenu s
  | .setClipboard it op => StateManager.setClipboard it op s
  | .clearClipboard => StateManager.clearClipboard s

def applyActions (s : AppState) (acts : List Action) : AppState :=
  acts.foldl applyAction s

/-- Number of listener-notification rounds an action performs: every
action calls `updateState` (hence `notifyListeners`) exactly once, except
`moveSelection` on an empty item list, which returns before updating. -/
def notificationRounds (s : AppState) : Action → Nat
  | .moveSelection _ => if s.viewport.items.length = 0 then 0 else 1
  | _ => 1

/-- The selection invariant as stated in the specification (§3). -/
def selectionInvariant (s : AppState) : Prop :=
  (s.selection.selectedIndex = -1 ↔ s.selection.selectedItem = none) ∧
  (s.selection.selectedIndex ≠ -1 →
    0 ≤ s.selection.selectedIndex ∧
    s.selection.selectedIndex < (s.viewport.items.length : Int) ∧
    jsIndex s.viewport.items s.selection.selectedIndex = s.selection.selectedItem)

instance (s : AppState) : Decidable (selectionInvariant s) := by
  unfold selectionInvariant
  infer_instance

/-! ## LayoutManager (src/core/layout-manager.ts)

All quantities are JS numbers; the relevant code paths use
`Math.floor(a/b)` with positive `b` (embedded as `Int.fdiv`) and the JS
remainder `%` on a non-negative dividend (embedded as `Int.tmod`). -/

structure LayoutInfo where
  itemsPerRow : Int
  totalRows : Int
  itemWidth : Int
  itemHeight : Int
  startY : Int
deriving DecidableEq, Repr

namespace LayoutManager

def ITEM_WIDTH : Int := 13
def ITEM_HEIGHT : Int := 5
def HEADER_HEIGHT : Int := 3
def FOOTER_HEIGHT : Int := 2
def MIN_ITEMS_PER_ROW : Int := 1

def calculateLayout (terminalSize : Size) : LayoutInfo :=
  let availableWidth := terminalSize.width - 4
  let availableHeight := terminalSize.height - HEADER_HEIGHT - FOOTER_HEIGHT - 2
  let itemsPerRow := max MIN_ITEMS_PER_ROW (availableWidth.fdiv ITEM_WIDTH)
  let maxRows := availableHeight.fdiv ITEM_HEIGHT
  let totalRows := max 1 maxRows
  { itemsPerRow := itemsPerRow
    totalRows := totalRows
    itemWidth := ITEM_WIDTH
    itemHeight := ITEM_HEIGHT
    startY := HEADER_HEIGHT + 1 }

structure ItemPosition where
  x : Int
  y : Int
  row : Int
  col : Int
  index : Int
deriving DecidableEq, Repr

def getItemPosition (index : Int) (layout : LayoutInfo) : ItemPosition :=
  let row := index.fdiv layout.itemsPerRow
  let col := index.tmod layout.itemsPerRow
  { x := col * layout.itemWidth + 2
    y := layout.startY + row * layout.itemHeight
    row := row
    col := col
    index := index }

def getItemIndexFromPosition (x y : Int) (layout : LayoutInfo) (totalItems : Int) : Int :=
  if y < layout.startY ∨ x < 2 then -1
  else
    let adjustedX := x - 2
    let adjustedY := y - layout.startY
    let col := adjustedX.fdiv layout.itemWidth
    let row := adjustedY.fdiv layout.itemHeight
    if col ≥ layout.itemsPerRow then -1
    else
      let index := row * layout.itemsPerRow + col
      if index < totalItems then index else -1

end LayoutManager

/-! ## Mouse / keyboard event types (src/core/types.ts) -/

inductive MouseButton where
  | left
  | middle
  | right
deriving DecidableEq, Repr

inductive MouseEventType where
  | click
  | doubleClick
deriving DecidableEq, Repr

structure MouseEventObject where
  x : Int
  y : Int
  button : MouseButton
  type : MouseEventType
deriving DecidableEq, Repr

/-! ## FileManager controller (core/file-manager.ts)

Each event-bus handler is embedded as a pure function `AppState → AppState`;
filesystem outcomes (scan success/failure, copy/move success/failure) are
passed in as parameters since they come from the external provider. -/

namespace FileManager

/-- Controller `loadCurrentDirectory`: on scan success, replace the item list,
store the layout recomputed from the snapshot's terminal size, and clear
the selection when the old selected index is out of bounds for the new
list; on scan failure, set the item list to empty (the catch branch). -/
def loadCurrentDirectory (scanResult : Option (List FileItem)) (s : AppState) : AppState :=
  match scanResult with
  | some items =>
      let s1 := StateManager.setFileItems items s
      let layout := LayoutManager.calculateLayout s.viewport.terminalSize
      let s2 := StateManager.setLayoutInfo layout.itemsPerRow layout.totalRows s1
      if s.selection.selectedIndex ≥ (items.length : Int) then StateManager.clearSelection s2
      else s2
  | none => StateManager.setFileItems [] s

def handleMouseClick (event : MouseEventObject) (s : AppState) : AppState :=
  let layout := LayoutManager.calculateLayout s.viewport.terminalSize
  if s.contextMenu.visible then StateManager.hideContextMenu s
  else
    let itemIndex :=
      LayoutManager.getItemIndexFromPosition event.x event.y layout (s.viewport.items.length : Int)
    if 0 ≤ itemIndex then
      StateManager.setSelection itemIndex (jsIndex s.viewport.items itemIndex) s
    else StateManager.clearSelection s

def handleMouseRightClick (event : MouseEventObject) (s : AppState) : AppState :=
  let layout := LayoutManager.calculateLayout s.viewport.terminalSize
  let itemIndex :=
    LayoutManager.getItemIndexFromPosition event.x event.y layout (s.viewport.items.length : Int)
  let targetItem := if 0 ≤ itemIndex then jsIndex s.viewport.items itemIndex else none
  let s1 :=
    if 0 ≤ itemIndex then StateManager.setSelection itemIndex targetItem s else s
  StateManager.showContextMenu { x := event.x, y := event.y } targetItem s1

def handleFileCopy (s : AppState) : AppState :=
  match s.selection.selectedItem with
  | some item => StateManager.setClipboard (some item) (some .copy) s
  | none => s

def handleFileCut (s : AppState) : AppState :=
  match s.selection.selectedItem with
  | some item => StateManager.setClipboard (some item) (some .cut) s
  | none => s

/-- Controller `handleFilePaste`: no-op when clipboard or operation is null; else
copy (operation = copy) or move-then-clear-clipboard (operation = cut),
then reload the directory. `fsOk = false` models the copy/move throwing,
which jumps to the catch block (log only) before the clipboard is cleared
or the directory reloaded. -/
def handleFilePaste (fsOk : Bool) (scanResult : Option (List FileItem)) (s : AppState) :
    AppState :=
  match s.clipboard, s.clipboardOperation with
  | some _, some op =>
      if fsOk then
        let s1 := if op = .cut then StateManager.clearClipboard s else s
        loadCurrentDirectory scanResult s1
      else s
  | _, _ => s

/-- A render trigger while the controller is running. `start()` wires
exactly two sources that call `this.render()`: the single state-store
subscription (`stateManager.subscribe(() => this.render())`) and the
50 ms interval callback installed by `startRenderLoop`
(`setInterval(() => this.render(), 50)`). -/
inductive RenderTrigger where
  | storeNotification
  | intervalTick
deriving DecidableEq, Repr

/-- Renders performed per trigger: the store subscriber calls `render()`
once, and the interval callback calls `render()` once. -/
def rendersOn : RenderTrigger → Nat
  | .storeNotification => 1
  | .intervalTick => 1

/-- The interval passed to `setInterval` in `startRenderLoop` ("20 FPS"). -/
def renderTimerIntervalMs : Option Nat := some 50

def renderCount (trace : List RenderTrigger) : Nat :=
  (trace.map rendersOn).sum

def countNotifications (trace : List RenderTrigger) : Nat :=
  trace.countP (· = .storeNotification)

def countTicks (trace : List RenderTrigger) : Nat :=
  trace.countP (· = .intervalTick)

end FileManager

/-! ## Node `path` module model (external collaborator)

POSIX behaviour of the `path` functions the sources call. These are not
part of the repository; they model the platform library on the inputs the
program uses (paths without trailing slashes). -/

namespace NodePath

/-- Index of the last occurrence of `c` in `l`, if any. -/
def lastIdx (c : Char) (l : List Char) : Option Nat :=
  ((l.enum.filter fun p => p.2 = c).map fun p => p.1).getLast?

def dirname (p : String) : String :=
  match lastIdx '/' p.toList with
  | none => "."
  | some 0 => "/"
  | some i => String.mk (p.toList.take i)

def basename (p : String) : String :=
  match lastIdx '/' p.toList with
  | none => p
  | some i => String.mk (p.toList.drop (i + 1))

/-- Model of `path.basename(p, ext)`: the basename with the suffix `ext` removed
when `ext` is a proper suffix of it. -/
def basenameDropExt (p ext : String) : String :=
  let b := basename p
  if 0 < ext.length ∧ ext.length < b.length ∧ jsEndsWith b ext then
    String.mk (b.data.take (b.data.length - ext.length))
  else b

def extname (p : String) : String :=
  let b := basename p
  match lastIdx '.' b.toList with
  | none => ""
  | some 0 => ""
  | some i => String.mk (b.toList.drop i)

/-- Model of `path.join(d, f)` for the two-argument uses in the sources. -/
def join (d f : String) : String :=
  if d = "" ∨ d = "." then f
  else if jsEndsWith d "/" then d ++ f
  else d ++ "/" ++ f

end NodePath

/-! ## FileScanner (src/core/file-scanner.ts)

`scanDirectory` is embedded over the data the runtime supplies: the raw
`readdir` entry list and a `stat` oracle (`none` models `fs.stat`
throwing, which makes the per-entry `catch` skip that entry). The
`localeCompare(..., \x7b numeric, sensitivity: base \x7d)` collation is
locale-dependent, so it is a parameter `nameCmp`; `Array.prototype.sort`
is a stable comparator sort, embedded as a stable insertion sort on
`cmp a b ≤ 0`. -/

structure DirEnt where
  name : String
  isDirectory : Bool
deriving DecidableEq, Repr

namespace FileScanner

/-- The comparator passed to `items.sort`: directories first, then the
locale-aware name order. -/
def entryCmp (nameCmp : String → String → Int) (a b : FileItem) : Int :=
  if a.type ≠ b.type then (if a.type = .directory then -1 else 1)
  else nameCmp a.name b.name

def scanDirectory (dirPath : String) (entries : List DirEnt)
    (stat : String → Option (Nat × Nat)) (nameCmp : String → String → Int) :
    List FileItem :=
  let items : List FileItem :=
    entries.filterMap fun e =>
      match stat e.name with
      | some (size, mtime) =>
          some
            { name := e.name
              path := NodePath.join dirPath e.name
              type := if e.isDirectory then .directory else .file
              size := if e.isDirectory then none else some size
              lastModified := some mtime }
      | none => none
  items.insertionSort fun a b => entryCmp nameCmp a b ≤ 0

/-- Helper `FileScanner.isHiddenFile` (defined in the source, but never invoked
by `scanDirectory`). -/
def isHiddenFile (fileName : String) : Bool :=
  jsStartsWith fileName "."

end FileScanner

/-! ## FileSystem (src/core/FileSystem.ts) — the alternate provider,
whose `listDirectory` skips entries whose name begins with a dot. -/

structure FSItem where
  name : String
  path : String
  isDirectory : Bool
  size : Nat
  modified : Nat
deriving DecidableEq, Repr

namespace FileSystem

def itemCmp (nameCmp : String → String → Int) (a b : FSItem) : Int :=
  if a.isDirectory ∧ ¬b.isDirectory then -1
  else if ¬a.isDirectory ∧ b.isDirectory then 1
  else nameCmp a.name b.name

def listDirectory (dirPath : String) (entries : List DirEnt)
    (stat : String → Nat × Nat) (nameCmp : String → String → Int) :
    List FSItem :=
  let fileItems : List FSItem :=
    entries.filterMap fun e =>
      if jsStartsWith e.name "." then none
      else
        let st := stat e.name
        some
          { name := e.name
            path := NodePath.join dirPath e.name
            isDirectory := e.isDirectory
            size := st.1
            modified := st.2 }
  fileItems.insertionSort fun a b => itemCmp nameCmp a b ≤ 0

end FileSystem

/-! ## SimpleEventBus (events/event-bus.ts)

`emit` iterates the handler list (subscription order: `on` appends) with
a try/catch around each call, so a throwing handler is recorded in the
`console.error` log and iteration continues. A handler invocation either
returns or throws. -/

inductive HandlerOutcome where
  | ok
  | thrown (msg : String)
deriving DecidableEq, Repr

namespace SimpleEventBus

/-- Method `emit`: invoke every handler in order; returns the outcome of each
invocation (in order) and the messages logged by the catch block. The
embedding is total: a thrown exception is converted to a log entry (the
catch) instead of aborting the iteration or escaping to the caller. -/
def emit {α : Type} (handlers : List (α → HandlerOutcome)) (payload : α) :
    List HandlerOutcome × List String :=
  match handlers with
  | [] => ([], [])
  | h :: rest =>
      (h payload :: (emit rest payload).1,
        (match h payload with | .ok => [] | .thrown e => [e]) ++ (emit rest payload).2)

end SimpleEventBus

/-! ## MouseHandler double-click synthesis (events/mouse-handler.ts) -/

/-- The tracking fields of `MouseHandler`; `Date.now()` values are
modelled as Int. -/
structure MouseTracking where
  lastClickTime : Int
  lastClickX : Int
  lastClickY : Int
deriving DecidableEq, Repr

/-- Which handler list the event is dispatched to. -/
inductive EmittedKind where
  | click
  | rightClick
  | doubleClick
deriving DecidableEq, Repr

namespace MouseHandler

def DOUBLE_CLICK_THRESHOLD : Int := 300

/-- Field initial values of a fresh `MouseHandler`. -/
def initialTracking : MouseTracking :=
  { lastClickTime := 0, lastClickX := 0, lastClickY := 0 }

/-- Method `emitMouseEvent`: classify the event as a double-click (and reset
`lastClickTime` to 0) or as a click/right-click (updating the tracking
fields only for left clicks). -/
def emitMouseEvent (st : MouseTracking) (event : MouseEventObject) (now : Int) :
    MouseTracking × EmittedKind :=
  if now - st.lastClickTime < DOUBLE_CLICK_THRESHOLD ∧
      |event.x - st.lastClickX| ≤ 1 ∧
      |event.y - st.lastClickY| ≤ 1 ∧
      event.button = .left then
    ({ st with lastClickTime := 0 }, .doubleClick)
  else
    let kind := if event.button = .right then EmittedKind.rightClick else EmittedKind.click
    let st' :=
      if event.button = .left then
        { lastClickTime := now, lastClickX := event.x, lastClickY := event.y }
      else st
    (st', kind)

/-- Run a timed sequence of pointer events through `emitMouseEvent`,
collecting the dispatched kinds in order. -/
def runClicks (st : MouseTracking) : List (MouseEventObject × Int) → MouseTracking × List EmittedKind
  | [] => (st, [])
  | (e, t) :: rest =>
      let (st1, k) := emitMouseEvent st e t
      let (st2, ks) := runClicks st1 rest
      (st2, k :: ks)

end MouseHandler

/-! ## FileOperations.getUniqueFileName (file-operations.ts)

The filesystem is modelled as the list of existing paths (`exists` is
membership). The unbounded do-while loop is embedded with explicit fuel:
`none` models the loop not having found a free name within `fuel`
iterations. -/

namespace FileOperations

/-- The candidate built in one loop iteration:
`path.join(dir, name + " (" + counter + ")" + ext)`. -/
def candidate (dir name ext : String) (counter : Nat) : String :=
  NodePath.join dir (name ++ " (" ++ toString counter ++ ")" ++ ext)

def uniqueLoop (fs : List String) (dir name ext : String) :
    Nat → Nat → Option String
  | 0, _ => none
  | fuel + 1, counter =>
      let newPath := candidate dir name ext counter
      if newPath ∈ fs then uniqueLoop fs dir name ext fuel (counter + 1)
      else some newPath

def getUniqueFileName (fuel : Nat) (fs : List String) (filePath : String) : Option String :=
  if filePath ∈ fs then
    let dir := NodePath.dirname filePath
    let ext := NodePath.extname filePath
    let name := NodePath.basenameDropExt filePath ext
    uniqueLoop fs dir name ext fuel 1
  else some filePath

end FileOperations

/-! ## Clipboard action sequences (for the clipboard invariant)

The clipboard-changing operations of the running system are the
controller handlers `handleFileCopy`, `handleFileCut`, `handleFilePaste`
and the store's `clearClipboard`. Sequences may interleave them with the
store's non-clipboard actions (selection, items, layout, menu, path),
which is how a selection comes to exist for copy/cut to capture. -/

inductive ClipSeqAction where
  | fileCopy
  | fileCut
  | filePaste (fsOk : Bool) (scanResult : Option (List FileItem))
  | clearClipboard
  | setCurrentPath (path : String)
  | setFileItems (items : List FileItem)
  | setTerminalSize (size : Size)
  | setLayoutInfo (itemsPerRow totalRows : Int)
  | setSelection (index : Int) (item : Option FileItem)
  | clearSelection
  | moveSelection (direction : Direction)
  | showContextMenu (position : Position) (targetItem : Option FileItem)
  | hideContextMenu
deriving DecidableEq, Repr

def applyClipAction (s : AppState) : ClipSeqAction → AppState
  | .fileCopy => FileManager.handleFileCopy s
  | .fileCut => FileManager.handleFileCut s
  | .filePaste fsOk scanResult => FileManager.handleFilePaste fsOk scanResult s
  | .clearClipboard => StateManager.clearClipboard s
  | .setCurrentPath p => StateManager.setCurrentPath p s
  | .setFileItems items => StateManager.setFileItems items s
  | .setTerminalSize size => StateManager.setTerminalSize size s
  | .setLayoutInfo ipr tr => StateManager.setLayoutInfo ipr tr s
  | .setSelection i it => StateManager.setSelection i it s
  | .clearSelection => StateManager.clearSelection s
  | .moveSelection d => StateManager.moveSelection d s
  | .showContextMenu p t => StateManager.showContextMenu p t s
  | .hideContextMenu => StateManager.hideContextMenu s

def applyClipActions (s : AppState) (acts : List ClipSeqAction) : AppState :=
  acts.foldl applyClipAction s

/-- A small populated state (one item, selection on it, layout 1×1),
used to exercise theorems with hypotheses on a concrete input. -/
def sampleState : AppState :=
  { viewport :=
      { currentPath := "/"
        items := [{ name := "a", path := "/a", type := .file }]
        terminalSize := { width := 80, height := 24 }
        itemsPerRow := 1
        totalRows := 1 }
    selection :=
      { selectedIndex := 0
        selectedItem := some { name := "a", path := "/a", type := .file } }
    contextMenu :=
      { visible := false
        position := { x := 0, y := 0 }
        targetItem := none }
    clipboard := none
    clipboardOperation := none }

/-- The clipboard invariant stated in the specification (§3):
`entry == null ⇔ operation == null`. -/
def clipboardInvariant (s : AppState) : Prop :=
  s.clipboard = none ↔ s.clipboardOperation = none

instance (s : AppState) : Decidable (clipboardInvariant s) := by
  unfold clipboardInvariant
  infer_instance

/-! # Theorems -/

/-- C1 counterexample: the store does not enforce the selection
invariant. A single action-method call, `setSelection(0, null)` on the
freshly constructed store, leaves the state with `selectedIndex = 0` but
`selectedItem = null`, violating the claimed invariant. -/
theorem C1_store_enforcement_counterexample :
    ¬ selectionInvariant
        (applyActions (StateManager.initialState "/" { width := 80, height := 24 })
          [.setSelection 0 none]) := by
  decide

/-- C1 (amended): the store does not enforce the selection invariant
itself — `setSelection` installs exactly the index/item pair its caller
passes, with no validation against the item list, and `setFileItems`
replaces the item list while leaving the selection untouched; keeping
`selectedIndex`/`selectedItem` consistent with `items` is therefore the
callers' responsibility. -/
theorem C1_store_enforcement_amended (s : AppState) (i : Int) (it : Option FileItem)
    (items : List FileItem) :
    (StateManager.setSelection i it s).selection =
      { selectedIndex := i, selectedItem := it } ∧
    (StateManager.setFileItems items s).selection = s.selection := by
  exact ⟨rfl, rfl⟩

/-- C2 counterexample: the controller does render on a fixed timer.
`startRenderLoop` installs a 50 ms `setInterval` whose callback calls
`render()`, so a trace consisting of a single timer tick and no
state-store notification still performs one render. -/
theorem C2_render_policy_counterexample :
    FileManager.renderTimerIntervalMs ≠ none ∧
    FileManager.renderCount [.intervalTick] = 1 ∧
    FileManager.countNotifications [.intervalTick] = 0 := by
  decide

/-- C2 (amended): while running, the controller renders once per
state-store notification (one subscribed render callback) and
additionally once per tick of the fixed 50 ms render-loop timer; every
store action performs at most one notification round (exactly one,
except `moveSelection` on an empty item list, which performs none). -/
theorem C2_render_policy_amended :
    FileManager.renderTimerIntervalMs = some 50 ∧
    (∀ trace : List FileManager.RenderTrigger,
      FileManager.renderCount trace =
        FileManager.countNotifications trace + FileManager.countTicks trace) ∧
    (∀ (s : AppState) (a : Action), notificationRounds s a ≤ 1) := by
  refine ⟨rfl, ?_, ?_⟩
  · intro trace
    induction trace with
    | nil => rfl
    | cons h t ih =>
        cases h <;>
          simp [FileManager.renderCount, FileManager.countNotifications,
            FileManager.countTicks, FileManager.rendersOn, List.countP_cons] at ih ⊢ <;>
          omega
  · intro s a
    cases a <;> simp only [notificationRounds] <;> try omega
    split <;> omega

/-- C3 counterexample: `FileScanner.scanDirectory` does not exclude
hidden entries. Scanning a directory containing `.git` returns an item
named `.git` (the `isHiddenFile` helper exists but `scanDirectory` never
calls it). -/
theorem C3_hidden_entries_counterexample :
    (FileScanner.scanDirectory "/home"
        [{ name := ".git", isDirectory := true }, { name := "a.txt", isDirectory := false }]
        (fun _ => some (0, 0)) (fun _ _ => 0)).map (fun it => it.name) =
      [".git", "a.txt"] ∧
    FileScanner.isHiddenFile ".git" = true := by
  decide

/-- C3 (amended): `FileScanner.scanDirectory` performs no name-based
filtering — every entry the `stat` oracle accepts appears in the result,
hidden or not; the dot-name exclusion exists only in the alternate
provider `FileSystem.listDirectory`, whose results never contain a name
beginning with `.`. -/
theorem C3_hidden_entries_amended :
    (∀ (dirPath : String) (entries : List DirEnt) (stat : String → Option (Nat × Nat))
        (nameCmp : String → String → Int) (e : DirEnt) (st : Nat × Nat),
        e ∈ entries → stat e.name = some st →
        ∃ it ∈ FileScanner.scanDirectory dirPath entries stat nameCmp, it.name = e.name) ∧
    (∀ (dirPath : String) (entries : List DirEnt) (stat : String → Nat × Nat)
        (nameCmp : String → String → Int) (it : FSItem),
        it ∈ FileSystem.listDirectory dirPath entries stat nameCmp →
        jsStartsWith it.name "." = false) := by
  constructor
  · intro dirPath entries stat nameCmp e st he hstat
    refine ⟨{ name := e.name
              path := NodePath.join dirPath e.name
              type := if e.isDirectory then .directory else .file
              size := if e.isDirectory then none else some st.1
              lastModified := some st.2 }, ?_, rfl⟩
    simp only [FileScanner.scanDirectory, List.mem_insertionSort, List.mem_filterMap]
    exact ⟨e, he, by rw [hstat]⟩
  · intro dirPath entries stat nameCmp it hit
    simp only [FileSystem.listDirectory, List.mem_insertionSort, List.mem_filterMap] at hit
    obtain ⟨e, _, hf⟩ := hit
    by_cases h : jsStartsWith e.name "." = true
    · rw [if_pos h] at hf
      exact Option.noConfusion hf
    · rw [if_neg h] at hf
      injection hf with hf
      subst hf
      simpa using h

/-- Witness for the C3 amended theorem at concrete inputs: `b.txt` shows
up in a `scanDirectory` result, and the item produced by
`listDirectory` over `[.x, c]` has a non-dot name. -/
theorem C3_hidden_entries_amended_witness :
    (∃ it ∈ FileScanner.scanDirectory "/h" [{ name := "b.txt", isDirectory := false }]
        (fun _ => some (1, 2)) (fun _ _ => 0), it.name = "b.txt") ∧
    jsStartsWith (FSItem.mk "c" "/h/c" false 0 0).name "." = false :=
  ⟨C3_hidden_entries_amended.1 "/h" _ _ _ { name := "b.txt", isDirectory := false } (1, 2)
      (by decide) rfl,
    C3_hidden_entries_amended.2 "/h"
      [{ name := ".x", isDirectory := false }, { name := "c", isDirectory := false }]
      (fun _ => (0, 0)) (fun _ _ => 0) (FSItem.mk "c" "/h/c" false 0 0) (by decide)⟩

/-- C4 counterexample: from the reachable state with one item, selection
still at its initial -1 and `itemsPerRow` still at its initial 0,
`moveSelection('down')` computes `min(0, -1 + 0) = -1`: the items list is
non-empty yet the produced `selectedIndex` is -1, outside
`[0, items.length)`. -/
theorem C4_moveSelection_counterexample :
    (applyActions (StateManager.initialState "/" { width := 80, height := 24 })
        [.setFileItems [{ name := "a", path := "/a", type := .file }],
          .moveSelection .down]).selection.selectedIndex = -1 ∧
    0 < (applyActions (StateManager.initialState "/" { width := 80, height := 24 })
        [.setFileItems [{ name := "a", path := "/a", type := .file }],
          .moveSelection .down]).viewport.items.length := by
  decide

/-- C4 (amended): `moveSelection` is a no-op when the item list is
empty; when it is non-empty, for every prior `selectedIndex` in
`[-1, items.length)` and every `itemsPerRow ≥ 0` the produced index lies
in `[0, items.length)`, except in the single case
direction = down, `selectedIndex = -1`, `itemsPerRow = 0` (the state
before any layout computation), where the result is again
`selectedIndex = -1` with `selectedItem = null`. -/
theorem C4_moveSelection_amended (s : AppState) (d : Direction) :
    (s.viewport.items.length = 0 → StateManager.moveSelection d s = s) ∧
    (0 < s.viewport.items.length → -1 ≤ s.selection.selectedIndex →
      s.selection.selectedIndex < (s.viewport.items.length : Int) →
      0 ≤ s.viewport.itemsPerRow →
      ((0 ≤ (StateManager.moveSelection d s).selection.selectedIndex ∧
          (StateManager.moveSelection d s).selection.selectedIndex <
            (s.viewport.items.length : Int)) ∨
        (d = .down ∧ s.selection.selectedIndex = -1 ∧ s.viewport.itemsPerRow = 0 ∧
          (StateManager.moveSelection d s).selection =
            { selectedIndex := -1, selectedItem := none }))) := by
  constructor
  · intro h
    simp [StateManager.moveSelection, h]
  · intro hlen hlo hhi hipr
    have hne : ¬ s.viewport.items.length = 0 := by omega
    by_cases hc : d = .down ∧ s.selection.selectedIndex = -1 ∧ s.viewport.itemsPerRow = 0
    · obtain ⟨hd, hidx, hip⟩ := hc
      right
      subst hd
      have hmin :
          min ((s.viewport.items.length : Int) - 1)
            (s.selection.selectedIndex + s.viewport.itemsPerRow) = -1 := by
        omega
      refine ⟨rfl, hidx, hip, ?_⟩
      simp [StateManager.moveSelection, hne, StateManager.setSelection, hmin, jsIndex]
    · left
      cases d with
      | up =>
          simp only [StateManager.moveSelection, hne, if_false, StateManager.setSelection]
          omega
      | down =>
          have hx : ¬ (s.selection.selectedIndex = -1 ∧ s.viewport.itemsPerRow = 0) :=
            fun hx => hc ⟨rfl, hx.1, hx.2⟩
          simp only [StateManager.moveSelection, hne, if_false, StateManager.setSelection]
          omega
      | left =>
          simp only [StateManager.moveSelection, hne, if_false, StateManager.setSelection]
          omega
      | right =>
          simp only [StateManager.moveSelection, hne, if_false, StateManager.setSelection]
          omega

/-- Witness for the C4 amended theorem: the empty no-op part at the
initial state (down on an empty list), and the in-range part on the
one-item sample state moving right. -/
theorem C4_moveSelection_amended_witness :
    (StateManager.moveSelection .down (StateManager.initialState "/" { width := 80, height := 24 }) =
      StateManager.initialState "/" { width := 80, height := 24 }) ∧
    ((0 ≤ (StateManager.moveSelection .right sampleState).selection.selectedIndex ∧
        (StateManager.moveSelection .right sampleState).selection.selectedIndex <
          (sampleState.viewport.items.length : Int)) ∨
      (Direction.right = .down ∧ sampleState.selection.selectedIndex = -1 ∧
        sampleState.viewport.itemsPerRow = 0 ∧
        (StateManager.moveSelection .right sampleState).selection =
          { selectedIndex := -1, selectedItem := none })) :=
  ⟨(C4_moveSelection_amended (StateManager.initialState "/" { width := 80, height := 24 })
      .down).1 rfl,
    (C4_moveSelection_amended sampleState .right).2 (by decide) (by decide) (by decide)
      (by decide)⟩

/-- Neither branch of `loadCurrentDirectory` touches the clipboard
fields. -/
theorem loadCurrentDirectory_clipboard (r : Option (List FileItem)) (s : AppState) :
    (FileManager.loadCurrentDirectory r s).clipboard = s.clipboard ∧
    (FileManager.loadCurrentDirectory r s).clipboardOperation = s.clipboardOperation := by
  cases r with
  | none => exact ⟨rfl, rfl⟩
  | some items =>
      simp only [FileManager.loadCurrentDirectory]
      split <;> exact ⟨rfl, rfl⟩

/-- Every clipboard-sequence step preserves the clipboard invariant. -/
theorem applyClipAction_clipboard_preserve (s : AppState) (a : ClipSeqAction)
    (h : clipboardInvariant s) : clipboardInvariant (applyClipAction s a) := by
  cases a with
  | fileCopy =>
      cases hsel : s.selection.selectedItem with
      | none => simpa [applyClipAction, FileManager.handleFileCopy, hsel] using h
      | some it =>
          simp [applyClipAction, FileManager.handleFileCopy, hsel,
            StateManager.setClipboard, clipboardInvariant]
  | fileCut =>
      cases hsel : s.selection.selectedItem with
      | none => simpa [applyClipAction, FileManager.handleFileCut, hsel] using h
      | some it =>
          simp [applyClipAction, FileManager.handleFileCut, hsel,
            StateManager.setClipboard, clipboardInvariant]
  | filePaste fsOk scanResult =>
      cases hcb : s.clipboard with
      | none => simpa [applyClipAction, FileManager.handleFilePaste, hcb] using h
      | some it =>
          cases hop : s.clipboardOperation with
          | none => simpa [applyClipAction, FileManager.handleFilePaste, hcb, hop] using h
          | some op =>
              cases fsOk with
              | false =>
                  simpa [applyClipAction, FileManager.handleFilePaste, hcb, hop] using h
              | true =>
                  simp only [applyClipAction, FileManager.handleFilePaste, hcb, hop, if_true]
                  rcases loadCurrentDirectory_clipboard scanResult
                      (if op = .cut then StateManager.clearClipboard s else s) with ⟨h1, h2⟩
                  unfold clipboardInvariant
                  rw [h1, h2]
                  cases op with
                  | cut => simp [StateManager.clearClipboard, StateManager.setClipboard]
                  | copy => simpa [clipboardInvariant] using h
  | clearClipboard =>
      simp [applyClipAction, StateManager.clearClipboard, StateManager.setClipboard,
        clipboardInvariant]
  | setCurrentPath p => exact h
  | setFileItems items => exact h
  | setTerminalSize size => exact h
  | setLayoutInfo ipr tr => exact h
  | setSelection i itm => exact h
  | clearSelection => exact h
  | moveSelection d =>
      simp only [applyClipAction, StateManager.moveSelection]
      split
      · exact h
      · exact h
  | showContextMenu p t => exact h
  | hideContextMenu => exact h

/-- C5: starting from the constructor's initial state, every sequence of
copy / cut / paste / clear-clipboard actions (freely interleaved with the
store's non-clipboard actions) leaves the state satisfying
`clipboard == null ⇔ clipboardOperation == null`. -/
theorem C5_clipboard_invariant (initialPath : String) (ts : Size)
    (acts : List ClipSeqAction) :
    clipboardInvariant (applyClipActions (StateManager.initialState initialPath ts) acts) := by
  have hstep : ∀ (l : List ClipSeqAction) (s : AppState), clipboardInvariant s →
      clipboardInvariant (applyClipActions s l) := by
    intro l
    induction l with
    | nil => intro s h; exact h
    | cons a t ih =>
        intro s h
        exact ih _ (applyClipAction_clipboard_preserve s a h)
  exact hstep acts _ (by simp [clipboardInvariant, StateManager.initialState])

/-- C8: `SimpleEventBus.emit` invokes every subscribed handler in
subscription order — each handler's outcome appears at its position, so
an earlier handler throwing does not prevent later handlers from running
— and the caught exceptions are exactly the thrown messages, in order,
routed to the error log rather than propagated to the publisher (the
embedding of `emit` is total). -/
theorem C8_event_bus_emit {α : Type} (handlers : List (α → HandlerOutcome)) (payload : α) :
    (SimpleEventBus.emit handlers payload).1 = handlers.map (fun h => h payload) ∧
    (SimpleEventBus.emit handlers payload).1.length = handlers.length ∧
    (SimpleEventBus.emit handlers payload).2 =
      (handlers.map (fun h => h payload)).filterMap
        (fun r => match r with | .ok => none | .thrown e => some e) := by
  induction handlers with
  | nil => exact ⟨rfl, rfl, rfl⟩
  | cons h t ih =>
      refine ⟨?_, ?_, ?_⟩
      · simp only [SimpleEventBus.emit, List.map_cons, ih.1]
      · simp only [SimpleEventBus.emit, List.length_cons, ih.1, List.length_map]
      · simp only [SimpleEventBus.emit, List.map_cons, List.filterMap_cons, ih.2.2]
        cases h payload <;> simp

/-- C10: with no context menu visible, a click whose coordinates resolve
to no item (`getItemIndexFromPosition` returns -1) is asymmetric — the
left-click handler clears the selection, while the right-click handler
leaves the selection untouched and opens the context menu at the click
position with a null target (the empty-space menu). -/
theorem C10_empty_space_clicks (s : AppState) (e : MouseEventObject)
    (hmenu : s.contextMenu.visible = false)
    (hmiss : LayoutManager.getItemIndexFromPosition e.x e.y
        (LayoutManager.calculateLayout s.viewport.terminalSize)
        (s.viewport.items.length : Int) = -1) :
    (FileManager.handleMouseClick e s).selection =
      { selectedIndex := -1, selectedItem := none } ∧
    (FileManager.handleMouseRightClick e s).selection = s.selection ∧
    (FileManager.handleMouseRightClick e s).contextMenu =
      { visible := true, position := { x := e.x, y := e.y }, targetItem := none } := by
  refine ⟨?_, ?_, ?_⟩ <;>
    simp [FileManager.handleMouseClick, FileManager.handleMouseRightClick, hmenu, hmiss,
      StateManager.clearSelection, StateManager.setSelection, StateManager.hideContextMenu,
      StateManager.showContextMenu]

/-- Witness for C10 at a concrete input: a click at (0, 0) — above the
content area — on the freshly constructed state. -/
theorem C10_empty_space_clicks_witness :
    (FileManager.handleMouseClick { x := 0, y := 0, button := .right, type := .click }
        (StateManager.initialState "/" { width := 80, height := 24 })).selection =
      { selectedIndex := -1, selectedItem := none } ∧
    (FileManager.handleMouseRightClick { x := 0, y := 0, button := .right, type := .click }
        (StateManager.initialState "/" { width := 80, height := 24 })).selection =
      (StateManager.initialState "/" { width := 80, height := 24 }).selection ∧
    (FileManager.handleMouseRightClick { x := 0, y := 0, button := .right, type := .click }
        (StateManager.initialState "/" { width := 80, height := 24 })).contextMenu =
      { visible := true, position := { x := 0, y := 0 }, targetItem := none } :=
  C10_empty_space_clicks (StateManager.initialState "/" { width := 80, height := 24 })
    { x := 0, y := 0, button := .right, type := .click } rfl (by decide)

/-- Round-trip of the grid coordinate maps for any layout with a
positive column count and positive cell dimensions. -/
theorem getItemIndexFromPosition_getItemPosition (L : LayoutInfo) (index totalItems : Int)
    (hipr : 0 < L.itemsPerRow) (hw : 0 < L.itemWidth) (hh : 0 < L.itemHeight)
    (h0 : 0 ≤ index) (htot : index < totalItems) :
    LayoutManager.getItemIndexFromPosition (LayoutManager.getItemPosition index L).x
      (LayoutManager.getItemPosition index L).y L totalItems = index := by
  have hcol0 : 0 ≤ index.tmod L.itemsPerRow := Int.tmod_nonneg _ h0
  have hcoltop : index.tmod L.itemsPerRow < L.itemsPerRow := Int.tmod_lt_of_pos index hipr
  have hrow0 : 0 ≤ index.fdiv L.itemsPerRow := Int.fdiv_nonneg h0 (le_of_lt hipr)
  have hP : 0 ≤ index.fdiv L.itemsPerRow * L.itemHeight := mul_nonneg hrow0 (le_of_lt hh)
  have hQ : 0 ≤ index.tmod L.itemsPerRow * L.itemWidth := mul_nonneg hcol0 (le_of_lt hw)
  simp only [LayoutManager.getItemPosition, LayoutManager.getItemIndexFromPosition]
  rw [if_neg (by omega)]
  rw [show index.tmod L.itemsPerRow * L.itemWidth + 2 - 2 =
      index.tmod L.itemsPerRow * L.itemWidth from by ring]
  rw [show L.startY + index.fdiv L.itemsPerRow * L.itemHeight - L.startY =
      index.fdiv L.itemsPerRow * L.itemHeight from by ring]
  rw [Int.mul_fdiv_cancel _ (ne_of_gt hw), Int.mul_fdiv_cancel _ (ne_of_gt hh)]
  rw [if_neg (not_le.mpr hcoltop)]
  have hid : index.fdiv L.itemsPerRow * L.itemsPerRow + index.tmod L.itemsPerRow = index := by
    rw [Int.fdiv_eq_ediv _ (le_of_lt hipr), Int.tmod_eq_emod h0 (le_of_lt hipr)]
    exact Int.ediv_add_emod' index L.itemsPerRow
  rw [hid, if_pos htot]

/-- C6: for every layout produced by `calculateLayout`, every index in
`[0, itemsPerRow * totalRows)` and every `totalItems > index`, feeding
`getItemPosition`'s x/y back into `getItemIndexFromPosition` recovers
exactly the index. -/
theorem C6_grid_round_trip (size : Size) (index totalItems : Int)
    (h0 : 0 ≤ index)
    (hrange : index <
      (LayoutManager.calculateLayout size).itemsPerRow *
        (LayoutManager.calculateLayout size).totalRows)
    (htot : index < totalItems) :
    LayoutManager.getItemIndexFromPosition
        (LayoutManager.getItemPosition index (LayoutManager.calculateLayout size)).x
        (LayoutManager.getItemPosition index (LayoutManager.calculateLayout size)).y
        (LayoutManager.calculateLayout size) totalItems = index := by
  have hipr : 0 < (LayoutManager.calculateLayout size).itemsPerRow := by
    simp only [LayoutManager.calculateLayout, LayoutManager.MIN_ITEMS_PER_ROW]
    omega
  exact getItemIndexFromPosition_getItemPosition (LayoutManager.calculateLayout size) index
    totalItems hipr (by norm_num [LayoutManager.calculateLayout, LayoutManager.ITEM_WIDTH])
    (by norm_num [LayoutManager.calculateLayout, LayoutManager.ITEM_HEIGHT]) h0 htot

/-- Witness for C6 on an 80×24 terminal (5 columns × 3 rows): index 5
round-trips. -/
theorem C6_grid_round_trip_witness :
    (0 : Int) ≤ 5 ∧
    (5 : Int) <
      (LayoutManager.calculateLayout { width := 80, height := 24 }).itemsPerRow *
        (LayoutManager.calculateLayout { width := 80, height := 24 }).totalRows ∧
    (5 : Int) < 6 ∧
    LayoutManager.getItemIndexFromPosition
        (LayoutManager.getItemPosition 5 (LayoutManager.calculateLayout
          { width := 80, height := 24 })).x
        (LayoutManager.getItemPosition 5 (LayoutManager.calculateLayout
          { width := 80, height := 24 })).y
        (LayoutManager.calculateLayout { width := 80, height := 24 }) 6 = 5 :=
  ⟨by decide, by decide, by decide,
    C6_grid_round_trip { width := 80, height := 24 } 5 6 (by decide) (by decide) (by decide)⟩

/-- The collision loop returns the first free candidate at or after its
starting counter, provided one exists within the remaining fuel. -/
theorem uniqueLoop_finds (fs : List String) (dir name ext : String) :
    ∀ (fuel start : Nat),
      (∃ k, k < fuel ∧ FileOperations.candidate dir name ext (start + k) ∉ fs) →
      ∃ N, start ≤ N ∧
        FileOperations.uniqueLoop fs dir name ext fuel start =
          some (FileOperations.candidate dir name ext N) ∧
        FileOperations.candidate dir name ext N ∉ fs ∧
        ∀ m, start ≤ m → m < N → FileOperations.candidate dir name ext m ∈ fs := by
  intro fuel
  induction fuel with
  | zero =>
      rintro start ⟨k, hk, -⟩
      omega
  | succ fuel ih =>
      rintro start ⟨k, hk, hfree⟩
      by_cases hmem : FileOperations.candidate dir name ext start ∈ fs
      · have hk0 : k ≠ 0 := by
          rintro rfl
          exact hfree hmem
        obtain ⟨N, hle, heq, hNfree, hmin⟩ :=
          ih (start + 1)
            ⟨k - 1, by omega, by
              have hx : start + 1 + (k - 1) = start + k := by omega
              rw [hx]
              exact hfree⟩
        refine ⟨N, by omega, ?_, hNfree, ?_⟩
        · simp only [FileOperations.uniqueLoop, if_pos hmem]
          exact heq
        · intro m hm1 hm2
          rcases eq_or_lt_of_le hm1 with hm | hm
          · rw [← hm]
            exact hmem
          · exact hmin m (by omega) hm2
      · refine ⟨start, le_refl _, ?_, hmem, ?_⟩
        · simp only [FileOperations.uniqueLoop, if_neg hmem]
        · intro m hm1 hm2
          omega

/-- C7: `getUniqueFileName` returns the destination unchanged when it
does not exist; on a collision it returns the candidate built by
appending " (n)" between the basename and the extension, for the
smallest n ≥ 1 whose candidate does not exist (given the loop finds a
free name within its fuel); in particular, with `report.txt` and
`report (1).txt` existing, pasting `report.txt` resolves to
`report (2).txt`. -/
theorem C7_unique_name :
    (∀ (fuel : Nat) (fs : List String) (filePath : String), filePath ∉ fs →
        FileOperations.getUniqueFileName fuel fs filePath = some filePath) ∧
    (∀ (fuel : Nat) (fs : List String) (filePath : String), filePath ∈ fs →
        (∃ n, 1 ≤ n ∧ n ≤ fuel ∧
          FileOperations.candidate (NodePath.dirname filePath)
            (NodePath.basenameDropExt filePath (NodePath.extname filePath))
            (NodePath.extname filePath) n ∉ fs) →
        ∃ N, 1 ≤ N ∧
          FileOperations.getUniqueFileName fuel fs filePath =
            some (FileOperations.candidate (NodePath.dirname filePath)
              (NodePath.basenameDropExt filePath (NodePath.extname filePath))
              (NodePath.extname filePath) N) ∧
          FileOperations.candidate (NodePath.dirname filePath)
            (NodePath.basenameDropExt filePath (NodePath.extname filePath))
            (NodePath.extname filePath) N ∉ fs ∧
          ∀ m, 1 ≤ m → m < N →
            FileOperations.candidate (NodePath.dirname filePath)
              (NodePath.basenameDropExt filePath (NodePath.extname filePath))
              (NodePath.extname filePath) m ∈ fs) ∧
    FileOperations.getUniqueFileName 3 ["/d/report.txt", "/d/report (1).txt"]
      "/d/report.txt" = some "/d/report (2).txt" := by
  refine ⟨?_, ?_, by decide⟩
  · intro fuel fs filePath h
    simp only [FileOperations.getUniqueFileName, if_neg h]
  · intro fuel fs filePath hmem ⟨n, hn1, hn2, hnfree⟩
    obtain ⟨N, hle, heq, hNfree, hmin⟩ :=
      uniqueLoop_finds fs (NodePath.dirname filePath)
        (NodePath.basenameDropExt filePath (NodePath.extname filePath))
        (NodePath.extname filePath) fuel 1
        ⟨n - 1, by omega, by
          have hx : 1 + (n - 1) = n := by omega
          rw [hx]
          exact hnfree⟩
    refine ⟨N, hle, ?_, hNfree, hmin⟩
    simp only [FileOperations.getUniqueFileName, if_pos hmem]
    exact heq

/-- Witness for C7: the no-collision branch at `/d/b.txt`, and the
collision branch at the spec's `report.txt` example, where the least
free counter is N = 2. -/
theorem C7_unique_name_witness :
    FileOperations.getUniqueFileName 5 ["/d/a.txt"] "/d/b.txt" = some "/d/b.txt" ∧
    ∃ N, 1 ≤ N ∧
      FileOperations.getUniqueFileName 3 ["/d/report.txt", "/d/report (1).txt"]
          "/d/report.txt" =
        some (FileOperations.candidate (NodePath.dirname "/d/report.txt")
          (NodePath.basenameDropExt "/d/report.txt" (NodePath.extname "/d/report.txt"))
          (NodePath.extname "/d/report.txt") N) ∧
      FileOperations.candidate (NodePath.dirname "/d/report.txt")
        (NodePath.basenameDropExt "/d/report.txt" (NodePath.extname "/d/report.txt"))
        (NodePath.extname "/d/report.txt") N ∉ ["/d/report.txt", "/d/report (1).txt"] ∧
      ∀ m, 1 ≤ m → m < N →
        FileOperations.candidate (NodePath.dirname "/d/report.txt")
          (NodePath.basenameDropExt "/d/report.txt" (NodePath.extname "/d/report.txt"))
          (NodePath.extname "/d/report.txt") m ∈ ["/d/report.txt", "/d/report (1).txt"] :=
  ⟨C7_unique_name.1 5 ["/d/a.txt"] "/d/b.txt" (by decide),
    C7_unique_name.2.1 3 ["/d/report.txt", "/d/report (1).txt"] "/d/report.txt" (by decide)
      ⟨2, by decide, by decide, by decide⟩⟩

/-- C9: a left click within the 300 ms window and within one cell of the
previous left click is dispatched as a double-click (not a click) and
resets `lastClickTime` to 0; after the reset a click at any realistic
clock value (≥ 300) is not classified as a double-click, so a third
rapid click starts a fresh pair; non-left buttons are never dispatched
as double-clicks; two left clicks one cell apart are one click plus one
double-click when 100 ms apart, but two independent clicks when 500 ms
apart. -/
theorem C9_double_click (st : MouseTracking) (e : MouseEventObject) (now : Int) :
    (now - st.lastClickTime < MouseHandler.DOUBLE_CLICK_THRESHOLD →
      |e.x - st.lastClickX| ≤ 1 → |e.y - st.lastClickY| ≤ 1 → e.button = .left →
      MouseHandler.emitMouseEvent st e now =
        ({ st with lastClickTime := 0 }, .doubleClick)) ∧
    (st.lastClickTime = 0 → MouseHandler.DOUBLE_CLICK_THRESHOLD ≤ now →
      (MouseHandler.emitMouseEvent st e now).2 ≠ .doubleClick) ∧
    (e.button ≠ .left → (MouseHandler.emitMouseEvent st e now).2 ≠ .doubleClick) ∧
    (MouseHandler.runClicks MouseHandler.initialTracking
        [({ x := 5, y := 5, button := .left, type := .click }, 100000),
          ({ x := 5, y := 6, button := .left, type := .click }, 100100)]).2 =
      [.click, .doubleClick] ∧
    (MouseHandler.runClicks MouseHandler.initialTracking
        [({ x := 5, y := 5, button := .left, type := .click }, 100000),
          ({ x := 5, y := 6, button := .left, type := .click }, 100500)]).2 =
      [.click, .click] := by
  refine ⟨?_, ?_, ?_, by decide, by decide⟩
  · intro h1 h2 h3 h4
    have hcond : now - st.lastClickTime < MouseHandler.DOUBLE_CLICK_THRESHOLD ∧
        |e.x - st.lastClickX| ≤ 1 ∧ |e.y - st.lastClickY| ≤ 1 ∧ e.button = MouseButton.left :=
      ⟨h1, h2, h3, h4⟩
    simp only [MouseHandler.emitMouseEvent]
    rw [if_pos hcond]
  · intro h0 hge
    simp only [MouseHandler.DOUBLE_CLICK_THRESHOLD] at hge
    simp only [MouseHandler.emitMouseEvent]
    rw [if_neg (by
      rintro ⟨hc, -, -, -⟩
      simp only [MouseHandler.DOUBLE_CLICK_THRESHOLD] at hc
      omega)]
    by_cases hb : e.button = .right <;> simp [hb]
  · intro hb
    simp only [MouseHandler.emitMouseEvent]
    rw [if_neg (by rintro ⟨-, -, -, hl⟩; exact hb hl)]
    by_cases hr : e.button = .right <;> simp [hr]

/-- Witness for C9 at concrete inputs: the second click of a rapid pair
becomes a double-click with the timer reset, the immediate third click
does not, and a rapid right click does not. -/
theorem C9_double_click_witness :
    MouseHandler.emitMouseEvent { lastClickTime := 100000, lastClickX := 5, lastClickY := 5 }
        { x := 5, y := 6, button := .left, type := .click } 100100 =
      ({ lastClickTime := 0, lastClickX := 5, lastClickY := 5 }, .doubleClick) ∧
    (MouseHandler.emitMouseEvent { lastClickTime := 0, lastClickX := 5, lastClickY := 5 }
        { x := 5, y := 6, button := .left, type := .click } 100200).2 ≠ .doubleClick ∧
    (MouseHandler.emitMouseEvent { lastClickTime := 100000, lastClickX := 5, lastClickY := 5 }
        { x := 5, y := 6, button := .right, type := .click } 100100).2 ≠ .doubleClick :=
  ⟨(C9_double_click { lastClickTime := 100000, lastClickX := 5, lastClickY := 5 }
      { x := 5, y := 6, button := .left, type := .click } 100100).1
      (by decide) (by decide) (by decide) rfl,
    (C9_double_click { lastClickTime := 0, lastClickX := 5, lastClickY := 5 }
      { x := 5, y := 6, button := .left, type := .click } 100200).2.1 rfl (by decide),
    (C9_double_click { lastClickTime := 100000, lastClickX := 5, lastClickY := 5 }
      { x := 5, y := 6, button := .right, type := .click } 100100).2.2.1 (by decide)⟩

end MimicWindow
